import Mathlib

/-!
Shallow embedding of the KnittelK/chip-8 interpreter (Rust) for verification.

Machine integers are modelled as `Nat` with explicit `% 2^w` where the Rust
code performs wrapping arithmetic, and `Int` where the source casts to `i16`.
Rust operations that can panic (out-of-bounds indexing, stack over/underflow,
unknown opcodes) are modelled by `Option`, `none` meaning a fatal abort.
-/

/-- Pointwise update of a function modelling an in-place array write. -/
def updFn (f : Nat → Nat) (k v : Nat) : Nat → Nat :=
  fun j => if j = k then v else f j

/-! ## Screen (src/screen.rs)

The display is a `[[u8; 64]; 32]` grid (`screen[y][x]`) plus a `collision`
flag.  The grid is modelled as a function `Nat → Nat → Nat` (row `y`, then
column `x`); indexing outside 32×64 panics in Rust and yields `none` here. -/

structure Screen where
  screen : Nat → Nat → Nat
  collision : Bool

/-- `Screen::default`: all pixels off (`PIXEL_OFF = 0`), no collision. -/
def Screen.default : Screen := ⟨fun _ _ => 0, false⟩

/-- XOR-toggle of one grid cell (`self.screen[y][x] ^= PIXEL_ON`). -/
def toggleCell (f : Nat → Nat → Nat) (y x : Nat) : Nat → Nat → Nat :=
  fun y' x' => if y' = y ∧ x' = x then f y' x' ^^^ 1 else f y' x'

/-- `Screen::draw_pixel_at_location`: XOR the pixel at `(x, y)` with `PIXEL_ON`.
Out-of-range indices panic in Rust, modelled as `none`. -/
def Screen.draw_pixel_at_location (s : Screen) (x y : Nat) : Option Screen :=
  if y < 32 ∧ x < 64 then some { s with screen := toggleCell s.screen y x } else none

/-- Whether bit `xline` (most significant first) of sprite row byte `pixel`
is set: `pixel & (0x80 >> xline) != 0`. -/
def bitSetB (pixel xline : Nat) : Bool := pixel &&& (0x80 >>> xline) != 0

/-- One iteration of the `for xline in 0..8` loop of
`Screen::draw_sprite_at_location`: if the bit is set, record a collision when
the destination pixel is already `PIXEL_ON`, then toggle it. -/
def Screen.spriteStep (pixel x_coord y_coord : Nat) (s : Screen) (xline : Nat) :
    Option Screen :=
  if bitSetB pixel xline then
    if y_coord < 32 ∧ x_coord + xline < 64 then
      let s1 := if s.screen y_coord (x_coord + xline) == 1 then
        { s with collision := true } else s
      s1.draw_pixel_at_location (x_coord + xline) y_coord
    else none
  else some s

/-- The `for xline in 0..8` loop, over an explicit list of bit indices. -/
def Screen.spriteLoop (pixel x_coord y_coord : Nat) : List Nat → Screen → Option Screen
  | [], s => some s
  | xline :: rest, s =>
    match Screen.spriteStep pixel x_coord y_coord s xline with
    | none => none
    | some s' => Screen.spriteLoop pixel x_coord y_coord rest s'

/-- `Screen::draw_sprite_at_location`: run the 8-bit loop, return the collision
flag accumulated during this call and reset it to `false`. -/
def Screen.draw_sprite_at_location (s : Screen) (pixel x_coord y_coord : Nat) :
    Option (Screen × Bool) :=
  match Screen.spriteLoop pixel x_coord y_coord (List.range 8) s with
  | none => none
  | some s' => some ({ s' with collision := false }, s'.collision)

/-- Whether column `x'` is touched when the sprite row byte `pixel` is drawn
at `x_coord`, over the bit indices in `idxs` (used to state the effect of the
sprite loop). -/
def hitB (pixel x_coord : Nat) (idxs : List Nat) (x' : Nat) : Bool :=
  idxs.any (fun i => bitSetB pixel i && (x' == x_coord + i))

/-- `Screen::how_many_ones`: counts pixels equal to `PIXEL_ON` into a `u8`
counter; the `u8` increment wraps modulo 256. -/
def Screen.how_many_ones (s : Screen) : Nat :=
  (List.range 32).foldl
    (fun c y => (List.range 64).foldl
      (fun c' x => if s.screen y x = 1 then (c' + 1) % 256 else c') c) 0

/-- Modelled from the spec: `count_set_pixels()` is "a diagnostic query
returning the number of pixels currently at 1" — the exact (unbounded) count,
for comparison with the `u8`-wrapping `Screen.how_many_ones` of the source. -/
def count_set_pixels_spec (s : Screen) : Nat :=
  (List.range 32).foldl
    (fun c y => (List.range 64).foldl
      (fun c' x => if s.screen y x = 1 then c' + 1 else c') c) 0

/-- `Screen::clear_screen`: set every pixel to 0 (collision flag untouched). -/
def Screen.clear_screen (s : Screen) : Screen := ⟨fun _ _ => 0, s.collision⟩

/-! ## Memory (src/memory.rs) -/

/-- Result of `Memory::load_program`: `Ok(())` or the `ProgramTooLargeError`. -/
inductive LoadResult where
  | ok : LoadResult
  | programTooLarge : LoadResult
deriving DecidableEq

/-- The 4096-byte store, as a function from address to byte value. -/
structure Memory where
  mem : Nat → Nat

/-- `Memory::default`: all 4096 bytes zero. -/
def Memory.default : Memory := ⟨fun _ => 0⟩

/-- Unchecked write; used only where the source guarantees the index is in
range (the `load_program` loop, guarded by the capacity check). -/
def Memory.write (m : Memory) (a v : Nat) : Memory :=
  ⟨fun a' => if a' = a then v else m.mem a'⟩

/-- Indexed read `memory[addr]`; out-of-range panics in Rust (`none` here). -/
def Memory.read? (m : Memory) (a : Nat) : Option Nat :=
  if a < 4096 then some (m.mem a) else none

/-- Checked write `memory[addr] = v` via `IndexMut` (`get_mut(..).unwrap()`);
out-of-range panics in Rust (`none` here). -/
def Memory.write? (m : Memory) (a v : Nat) : Option Memory :=
  if a < 4096 then some (m.write a v) else none

/-- The write loop of `Memory::load_program`:
`for (idx, b) in program { memory[base + idx] = b }`. -/
def Memory.storeProgramFrom (m : Memory) (base : Nat) : List Nat → Memory
  | [] => m
  | b :: rest => (m.write base b).storeProgramFrom (base + 1) rest

/-- `Memory::load_program`: fails (memory untouched) when
`program.len() + 512 > 4096`, otherwise writes the bytes from offset 512. -/
def Memory.load_program (m : Memory) (program : List Nat) : LoadResult × Memory :=
  if program.length + 512 > 4096 then (LoadResult.programTooLarge, m)
  else (LoadResult.ok, m.storeProgramFrom 512 program)

/-! ## Keypad (src/keyboard.rs)

The source `Keypad` stores a static key-binding table and a `HashSet<u8>` of
currently pressed keys; the set is modelled as a `Finset ℕ`. -/

/-- The static `KEY_BINDINGS` table. -/
def KEY_BINDINGS : List (Nat × Char) :=
  [(0x0, 'X'), (0x1, '1'), (0x2, '2'), (0x3, '3'),
   (0x4, 'Q'), (0x5, 'W'), (0x6, 'E'), (0x7, 'A'),
   (0x8, 'S'), (0x9, 'D'), (0xA, 'Z'), (0xB, 'C'),
   (0xC, '4'), (0xD, 'R'), (0xE, 'F'), (0xF, 'V')]

structure Keypad where
  mapping : List (Nat × Char)
  pressed_keys : Finset ℕ

/-- `Keypad::default`: bindings table populated, no pressed keys. -/
def Keypad.default : Keypad := ⟨KEY_BINDINGS, ∅⟩

/-- `Keypad::keypress`: `self.pressed_keys.insert(key)`. -/
def Keypad.keypress (k : Keypad) (key : Nat) : Keypad :=
  { k with pressed_keys := insert key k.pressed_keys }

/-- `Keypad::remove_keypress`: `self.pressed_keys.remove(&keypress)` — returns
whether the key was present and removes it. -/
def Keypad.remove_keypress (k : Keypad) (key : Nat) : Bool × Keypad :=
  (decide (key ∈ k.pressed_keys), { k with pressed_keys := k.pressed_keys.erase key })

/-- `Keypad::any_key_pressed`: `self.pressed_keys.len() > 0`. -/
def Keypad.any_key_pressed (k : Keypad) : Bool := k.pressed_keys.card > 0

/-- `Keypad::zero_keypresses`: `self.pressed_keys.clear()`. -/
def Keypad.zero_keypresses (k : Keypad) : Keypad := { k with pressed_keys := ∅ }

/-! ## CPU (src/cpu.rs) -/

/-- The static `CHIP8_FONTSET` array: 16 glyphs × 5 bytes = 80 bytes. -/
def CHIP8_FONTSET : List Nat :=
  [0xF0, 0x90, 0x90, 0x90, 0xF0,
   0x20, 0x60, 0x20, 0x20, 0x70,
   0xF0, 0x10, 0xF0, 0x80, 0xF0,
   0xF0, 0x10, 0xF0, 0x10, 0xF0,
   0x90, 0x90, 0xF0, 0x10, 0x10,
   0xF0, 0x80, 0xF0, 0x10, 0xF0,
   0xF0, 0x80, 0xF0, 0x90, 0xF0,
   0xF0, 0x10, 0x20, 0x40, 0x40,
   0xF0, 0x90, 0xF0, 0x90, 0xF0,
   0xF0, 0x90, 0xF0, 0x10, 0xF0,
   0xF0, 0x90, 0xF0, 0x90, 0x90,
   0xE0, 0x90, 0xE0, 0x90, 0xE0,
   0xF0, 0x80, 0x80, 0x80, 0xF0,
   0xE0, 0x90, 0x90, 0x90, 0xE0,
   0xF0, 0x80, 0xF0, 0x80, 0xF0,
   0xF0, 0x80, 0xF0, 0x80, 0x80]

/-- The `Chip8` machine state.

The `keyboard` field is modelled from the spec: `cpu.rs` calls
`Keypad::take_keypress` and `Keypad::was_key_pressed`, which are absent from
`src/keyboard.rs`; per the spec's adopted consumable-single-key model the
CPU-visible keypad state is "the most recently pressed key not yet consumed,
modeled as an optional key code".

`randStream`/`randIdx` inject the `rand::random::<u8>()` source of opcode
`0xCxnn` as a deterministic stream, as the spec's §5 prescribes for modelling. -/
structure Chip8 where
  memory : Memory
  pc : Nat
  i : Nat
  register : Nat → Nat
  stack : Nat → Nat
  sp : Nat
  delay_timer : Nat
  sound_timer : Nat
  screen : Screen
  keyboard : Option Nat
  randStream : Nat → Nat
  randIdx : Nat

/-- Modelled from the spec: `take()` "returns the outstanding key (if any) and
clears it to none (consuming read)". -/
def takeKeypress (k : Option Nat) : Option Nat × Option Nat := (k, none)

/-- Modelled from the spec: `was_pressed(key_code)` "returns true iff the
outstanding (not-yet-consumed) key equals `key_code`, WITHOUT clearing it". -/
def wasKeyPressed (k : Option Nat) (key : Nat) : Bool := k == some key

/-- `Chip8::new`: zeroed state, `pc = 512`, and the font copy loop
`for i in 0..79 { memory[i] = CHIP8_FONTSET[i] }` (note: 79 iterations,
addresses 0 through 78). -/
def Chip8.new (rand : Nat → Nat) : Chip8 :=
  let memory := (List.range 79).foldl
    (fun m i => m.write i (CHIP8_FONTSET.getD i 0)) Memory.default
  { memory := memory
    i := 0
    pc := 512
    register := fun _ => 0
    stack := fun _ => 0
    sp := 0
    delay_timer := 0
    sound_timer := 0
    screen := Screen.default
    keyboard := none
    randStream := rand
    randIdx := 0 }

/-- `Chip8::populate_register`: write `data[idx]` into register `idx`. -/
def Chip8.populate_register (c : Chip8) (data : List Nat) : Chip8 :=
  { c with register := data.enum.foldl (fun reg p => updFn reg p.1 p.2) c.register }

/-- `Chip8::load_into_memory`: delegate to `Memory::load_program`. -/
def Chip8.load_into_memory (c : Chip8) (program : List Nat) : LoadResult × Chip8 :=
  let r := c.memory.load_program program
  (r.1, { c with memory := r.2 })

/-- `Chip8::get_value_at_register_addr`: `self.register.get(addr).copied()`. -/
def Chip8.get_value_at_register_addr (c : Chip8) (addr : Nat) : Option Nat :=
  if addr < 16 then some (c.register addr) else none

/-- `Chip8::read_opcode`: big-endian 16-bit fetch
`memory[pc] << 8 | memory[pc + 1]`. -/
def Chip8.read_opcode (c : Chip8) : Option Nat :=
  match c.memory.read? c.pc, c.memory.read? (c.pc + 1) with
  | some hb, some lb => some (hb <<< 8 ||| lb)
  | _, _ => none

/-- `Chip8::call_fn_at_addr`: push `pc`, bump `sp`, jump.  The source panics
("Stack overflow!") for `sp > 16` and on the `stack[16]` write for `sp = 16`;
both are `none`. -/
def Chip8.call_fn_at_addr (c : Chip8) (addr : Nat) : Option Chip8 :=
  if c.sp ≥ 16 then none
  else some { c with stack := updFn c.stack c.sp c.pc, sp := c.sp + 1, pc := addr }

/-- `Chip8::return_from_fn_call`: panics ("Stack underflow!") on empty stack,
otherwise pops the return address into `pc`. -/
def Chip8.return_from_fn_call (c : Chip8) : Option Chip8 :=
  if c.sp = 0 then none
  else some { c with sp := c.sp - 1, pc := c.stack (c.sp - 1) }

/-- `Chip8::add` (opcode 8xy4): `overflowing_add`, result first, then the
carry into `VF`. -/
def Chip8.add (c : Chip8) (x y : Nat) : Chip8 :=
  let arg1 := c.register x
  let arg2 := c.register y
  let val := (arg1 + arg2) % 256
  let c1 := { c with register := updFn c.register x val }
  if arg1 + arg2 > 255 then
    { c1 with register := updFn c1.register 0xF 1 }
  else
    { c1 with register := updFn c1.register 0xF 0 }

/-- `Chip8::sub` (opcode 8xy5): when `vy > vx` the source computes
`(vx as i16 - vy as i16 + 1).abs() as u8`, else `vx - vy`; then sets `VF`. -/
def Chip8.sub (c : Chip8) (x y : Nat) : Chip8 :=
  let vx := c.register x
  let vy := c.register y
  if vy > vx then
    let val := (((vx : Int) - (vy : Int) + 1).natAbs) % 256
    { c with register := updFn (updFn c.register x val) 0xF 0 }
  else
    { c with register := updFn (updFn c.register x (vx - vy)) 0xF 1 }

/-- The `for yline in 0..height` sprite loop of opcode `Dxyn`: read the row
byte at `I + yline`, composite it at `(Vx, Vy + yline)` (a `u8` addition,
hence `% 256`), and latch `VF := 1` on any collision. -/
def Chip8.drawRows (c : Chip8) (x_coord y_coord : Nat) : List Nat → Option Chip8
  | [] => some c
  | yline :: rest =>
    match c.memory.read? (c.i + yline) with
    | none => none
    | some pixel =>
      match c.screen.draw_sprite_at_location pixel x_coord ((y_coord + yline) % 256) with
      | none => none
      | some (scr, collision) =>
        let c' := { c with
          screen := scr
          register := if collision then updFn c.register 0xF 1 else c.register }
        c'.drawRows x_coord y_coord rest

/-- The `Fx55` store loop: `for idx in 0..=x { memory[i + idx] = register[idx] }`. -/
def storeRegsLoop (m : Memory) (reg : Nat → Nat) (i : Nat) : List Nat → Option Memory
  | [] => some m
  | idx :: rest =>
    match m.write? (i + idx) (reg idx) with
    | none => none
    | some m' => storeRegsLoop m' reg i rest

/-- The `Fx65` load loop: registers `0..=x` filled from memory `i..=i+x`. -/
def loadRegsLoop (reg : Nat → Nat) (m : Memory) (i : Nat) : List Nat → Option (Nat → Nat)
  | [] => some reg
  | sidx :: rest =>
    match m.read? (i + sidx) with
    | none => none
    | some v => loadRegsLoop (updFn reg sidx v) m i rest

/-- The opcode dispatch `match` of `Chip8::execute_instruction`, arm for arm
in source order.  Returns `none` for a panic; otherwise the new state and a
flag: `false` for the arms that `return` early (halt sentinel, jumps, calls,
blocked key wait), `true` when control falls through to the common
`pc += 2` / timer-update tail. -/
def Chip8.dispatch (c : Chip8) (opcode : Nat) : Option (Chip8 × Bool) :=
  let g := (opcode &&& 0xF000) >>> 12
  let x := (opcode &&& 0x0F00) >>> 8
  let y := (opcode &&& 0x00F0) >>> 4
  let n := opcode &&& 0x000F
  let nnn := opcode &&& 0x0FFF
  let nn := opcode &&& 0x00FF
  if g = 0 ∧ x = 0 ∧ y = 0 ∧ n = 0 then
    some (c, false)
  else if g = 0 ∧ x = 0 ∧ y = 0xE ∧ n = 0 then
    some ({ c with screen := c.screen.clear_screen }, true)
  else if g = 0 ∧ x = 0 ∧ y = 0xE ∧ n = 0xE then
    (c.return_from_fn_call).map (fun c' => (c', true))
  else if g = 0x1 then
    some ({ c with pc := nnn }, false)
  else if g = 0x2 then
    (c.call_fn_at_addr nnn).map (fun c' => (c', false))
  else if g = 0x3 then
    some (if c.register x = nn then { c with pc := (c.pc + 2) % 65536 } else c, true)
  else if g = 0x4 then
    some (if c.register x ≠ nn then { c with pc := (c.pc + 2) % 65536 } else c, true)
  else if g = 0x5 ∧ n = 0 then
    some (if c.register x = c.register y then { c with pc := (c.pc + 2) % 65536 } else c, true)
  else if g = 0x6 then
    some ({ c with register := updFn c.register x nn }, true)
  else if g = 0x7 then
    some ({ c with register := updFn c.register x ((c.register x + nn) &&& 0xFF) }, true)
  else if g = 0x8 then
    if n = 0x0 then
      some ({ c with register := updFn c.register x (c.register y) }, true)
    else if n = 0x1 then
      some ({ c with register := updFn c.register x (c.register x ||| c.register y) }, true)
    else if n = 0x2 then
      some ({ c with register := updFn c.register x (c.register x &&& c.register y) }, true)
    else if n = 0x3 then
      some ({ c with register := updFn c.register x (c.register x ^^^ c.register y) }, true)
    else if n = 0x4 then
      some (c.add x y, true)
    else if n = 0x5 then
      some (c.sub x y, true)
    else if n = 0x6 then
      let c1 := { c with register := updFn c.register 0xF (c.register x &&& 0x1) }
      some ({ c1 with register := updFn c1.register x (c1.register x >>> 1) }, true)
    else if n = 0x7 then
      let vx := c.register x
      let vy := c.register y
      if vx > vy then
        let reg := updFn (updFn c.register x ((((vy : Int) - (vx : Int) + 1).natAbs) % 256)) 0xF 0
        some ({ c with register := reg }, true)
      else
        let reg := updFn (updFn c.register x ((((vy : Int) - (vx : Int)).natAbs) % 256)) 0xF 1
        some ({ c with register := reg }, true)
    else if n = 0xE then
      let c1 := { c with register := updFn c.register 0xF (c.register x >>> 7) }
      some ({ c1 with register := updFn c1.register x ((c1.register x <<< 1) % 256) }, true)
    else none
  else if g = 0x9 ∧ n = 0 then
    some (if c.register x ≠ c.register y then { c with pc := (c.pc + 2) % 65536 } else c, true)
  else if g = 0xA then
    some ({ c with i := nnn }, true)
  else if g = 0xB then
    some ({ c with pc := nnn + c.register 0 }, false)
  else if g = 0xC then
    let r := c.randStream c.randIdx % 256
    some ({ c with register := updFn c.register x (r &&& nn), randIdx := c.randIdx + 1 }, true)
  else if g = 0xD then
    let c1 := { c with register := updFn c.register 0xF 0 }
    (c1.drawRows (c1.register x) (c1.register y) (List.range n)).map (fun c' => (c', true))
  else if g = 0xE ∧ y = 0x9 ∧ n = 0xE then
    let taken := takeKeypress c.keyboard
    let c1 := { c with keyboard := taken.2 }
    some (if taken.1 = some x then { c1 with pc := (c1.pc + 2) % 65536 } else c1, true)
  else if g = 0xE ∧ y = 0xA ∧ n = 0x1 then
    some (if ¬ wasKeyPressed c.keyboard x then { c with pc := (c.pc + 2) % 65536 } else c, true)
  else if g = 0xF ∧ y = 0x0 ∧ n = 0x7 then
    some ({ c with register := updFn c.register x c.delay_timer }, true)
  else if g = 0xF ∧ y = 0x0 ∧ n = 0xA then
    let taken := takeKeypress c.keyboard
    match taken.1 with
    | some key => some ({ c with register := updFn c.register x key, keyboard := taken.2 }, true)
    | none => some ({ c with keyboard := taken.2 }, false)
  else if g = 0xF ∧ y = 0x1 ∧ n = 0x5 then
    some ({ c with delay_timer := c.register x }, true)
  else if g = 0xF ∧ y = 0x1 ∧ n = 0x8 then
    some ({ c with sound_timer := c.register x }, true)
  else if g = 0xF ∧ y = 0x1 ∧ n = 0xE then
    let c1 := if c.i + c.register x > 0xFFF then
      { c with register := updFn c.register 0xF 1 } else c
    some ({ c1 with i := (c1.i + c1.register x) % 65536 }, true)
  else if g = 0xF ∧ y = 0x2 ∧ n = 0x9 then
    some ({ c with i := (c.register x * 0x5) % 256 }, true)
  else if g = 0xF ∧ y = 0x3 ∧ n = 0x3 then
    match c.memory.write? c.i (c.register x / 100) with
    | none => none
    | some m1 =>
      match m1.write? (c.i + 1) (c.register x / 10 % 10) with
      | none => none
      | some m2 =>
        match m2.write? (c.i + 2) (c.register x % 10) with
        | none => none
        | some m3 => some ({ c with memory := m3 }, true)
  else if g = 0xF ∧ y = 0x5 ∧ n = 0x5 then
    (storeRegsLoop c.memory c.register c.i (List.range (x + 1))).map
      (fun m => ({ c with memory := m }, true))
  else if g = 0xF ∧ y = 0x6 ∧ n = 0x5 then
    (loadRegsLoop c.register c.memory c.i (List.range (x + 1))).map
      (fun reg => ({ c with register := reg }, true))
  else none

/-- First half of the timer-update tail of `Chip8::execute_instruction`:
decrement the delay timer if positive. -/
def Chip8.tickDelay (c : Chip8) : Chip8 :=
  if c.delay_timer > 0 then { c with delay_timer := c.delay_timer - 1 } else c

/-- Second half of the timer-update tail: decrement the sound timer if
positive. -/
def Chip8.tickSound (c : Chip8) : Chip8 :=
  if c.sound_timer > 0 then { c with sound_timer := c.sound_timer - 1 } else c

/-- The timer-update tail of `Chip8::execute_instruction`: decrement the
delay timer if positive, then the sound timer if positive. -/
def Chip8.tickTimers (c : Chip8) : Chip8 := (c.tickDelay).tickSound

/-- `Chip8::execute_instruction`: dispatch, then — unless the arm returned
early — `pc += 2` and one countdown tick of each timer. -/
def Chip8.execute_instruction (c : Chip8) (opcode : Nat) : Option Chip8 :=
  match c.dispatch opcode with
  | none => none
  | some (c', cont) =>
    if cont then some (Chip8.tickTimers { c' with pc := (c'.pc + 2) % 65536 })
    else some c'

/-- `Chip8::run`: repeatedly fetch and execute until the `0x0000` halt
sentinel is fetched, with explicit fuel (`none` when fuel runs out or a fatal
fault occurs). -/
def Chip8.runFuel : Nat → Chip8 → Option Chip8
  | 0, _ => none
  | fuel + 1, c =>
    match c.read_opcode with
    | none => none
    | some opcode =>
      if opcode ≠ 0 then
        match c.execute_instruction opcode with
        | none => none
        | some c' => Chip8.runFuel fuel c'
      else some c

/-! ## Concrete machine states used as test inputs -/

/-- A machine holding outstanding key 7 with `V4 = 7` (so the key equals the
register value `Vx`, but not the register index `x = 4`). -/
def c2State : Chip8 :=
  { Chip8.new (fun _ => 0) with register := updFn (fun _ => 0) 4 7, keyboard := some 7 }

/-- A machine with `V0 = 0xBA`, `V1 = 0xCC` (so `V1 > V0`). -/
def c3State : Chip8 :=
  { Chip8.new (fun _ => 0) with register := updFn (updFn (fun _ => 0) 0 0xBA) 1 0xCC }

/-- A machine with `VF = 1`, `I = 0x10`, `V4 = 0x17` (so `I + V4 ≤ 0xFFF`). -/
def c4State : Chip8 :=
  { Chip8.new (fun _ => 0) with
      i := 0x10
      register := updFn (updFn (fun _ => 0) 4 0x17) 0xF 1 }

/-- A machine with `VF = 1` (all other registers zero). -/
def c7State : Chip8 :=
  { Chip8.new (fun _ => 0) with register := updFn (fun _ => 0) 0xF 1 }

/-- The spec's §8 subroutine example program, loaded at offset 512:
`[0x22,0x0A, 0,0,0,0,0,0, 0x00,0xEE]` (ten bytes, `0x00EE` at address 520). -/
def c8SpecMachine : Chip8 :=
  ((Chip8.new (fun _ => 0)).load_into_memory
    [0x22, 0x0A, 0, 0, 0, 0, 0, 0, 0x00, 0xEE]).2

/-- The corrected subroutine example program: twelve bytes with `0x00EE` at
address 522 = 0x20A, the target of the `0x220A` call. -/
def c8FixedMachine : Chip8 :=
  ((Chip8.new (fun _ => 0)).load_into_memory
    [0x22, 0x0A, 0, 0, 0, 0, 0, 0, 0, 0, 0x00, 0xEE]).2

/-! ## Helper lemmas -/

lemma tickTimers_register (c : Chip8) : (Chip8.tickTimers c).register = c.register := by
  unfold Chip8.tickTimers Chip8.tickDelay Chip8.tickSound
  split <;> split <;> rfl

lemma tickTimers_pc (c : Chip8) : (Chip8.tickTimers c).pc = c.pc := by
  unfold Chip8.tickTimers Chip8.tickDelay Chip8.tickSound
  split <;> split <;> rfl

lemma tickTimers_sp (c : Chip8) : (Chip8.tickTimers c).sp = c.sp := by
  unfold Chip8.tickTimers Chip8.tickDelay Chip8.tickSound
  split <;> split <;> rfl

lemma updFn_self (f : Nat → Nat) (k v : Nat) : updFn f k v k = v := by
  simp [updFn]

lemma updFn_other (f : Nat → Nat) (k v j : Nat) (h : j ≠ k) : updFn f k v j = f j := by
  simp [updFn, h]

/-! ## C1 -/

/-- C1: the source `Keypad` stores pressed keys in a set; after `keypress(1)`
then `keypress(2)` both keys remain pressed (`remove_keypress(1)` still
returns `true`), contradicting the claim that a new press overwrites the
prior outstanding key leaving only key 2 remembered. -/
theorem C1_keypad_set_semantics :
    (((Keypad.default.keypress 1).keypress 2).remove_keypress 1).1 = true ∧
    1 ∈ ((Keypad.default.keypress 1).keypress 2).pressed_keys ∧
    2 ∈ ((Keypad.default.keypress 1).keypress 2).pressed_keys := by
  decide

/-! ## C2 -/

/-- C2: on `c2State` (outstanding key 7, `V4 = 7`, `pc = 512`) the claim says
opcode `0xE49E` must skip (the consumed key 7 equals `V4`), yielding
`pc = 516`; the code instead compares the taken key to the register index
`x = 4`, does not skip (`pc = 514`), and still consumes the key. -/
theorem C2_key_skip_eval :
    c2State.pc = 512 ∧ c2State.keyboard = some (c2State.register 4) ∧
    (c2State.execute_instruction 0xE49E).map (fun s => (s.pc, s.keyboard)) =
      some (514, none) ∧
    (514 : Nat) ≠ 516 := by
  refine ⟨rfl, rfl, by decide, by decide⟩

/-! ## C4 -/

/-- C4: on `c4State` (`VF = 1`, `I = 0x10`, `V4 = 0x17`, so `I + V4 ≤ 0xFFF`)
the claim says opcode `0xF41E` sets `VF := 0`; the code has no `else` branch
resetting `VF`, so `VF` remains 1 (while `I` is correctly updated to 0x27). -/
theorem C4_addI_eval :
    c4State.register 0xF = 1 ∧ c4State.i + c4State.register 4 ≤ 0xFFF ∧
    (c4State.execute_instruction 0xF41E).map (fun s => (s.register 0xF, s.i)) =
      some (1, 0x27) ∧
    (1 : Nat) ≠ 0 := by
  refine ⟨rfl, by decide, by decide, by decide⟩

/-! ## C5 -/

/-- C5: `Chip8::new` loops `for i in 0..79`, copying only 79 of the 80 font
bytes: memory address 78 receives font byte 0x80, but address 79 stays 0
although `CHIP8_FONTSET[79] = 0x80` (the last row of the F glyph).  The other
constructed fields match the claim (`pc = 512`, `sp = 0`, zero registers and
timers, empty keypad, blank display). -/
theorem C5_font_copy_eval :
    (Chip8.new (fun _ => 0)).memory.mem 78 = 0x80 ∧
    (Chip8.new (fun _ => 0)).memory.mem 79 = 0 ∧
    CHIP8_FONTSET.getD 79 0 = 0x80 ∧ (0 : Nat) ≠ 0x80 ∧
    (Chip8.new (fun _ => 0)).pc = 512 ∧ (Chip8.new (fun _ => 0)).sp = 0 ∧
    (Chip8.new (fun _ => 0)).register 3 = 0 ∧
    (Chip8.new (fun _ => 0)).delay_timer = 0 ∧
    (Chip8.new (fun _ => 0)).sound_timer = 0 ∧
    (Chip8.new (fun _ => 0)).keyboard = none ∧
    (Chip8.new (fun _ => 0)).screen.screen 5 5 = 0 := by
  refine ⟨by decide, by decide, by decide, by decide, rfl, rfl, rfl, rfl, rfl, rfl, rfl⟩

/-! ## C6 -/

lemma storeProgramFrom_mem (l : List Nat) : ∀ (m : Memory) (base a : Nat),
    (m.storeProgramFrom base l).mem a =
      if base ≤ a ∧ a < base + l.length then l.getD (a - base) 0 else m.mem a := by
  induction l with
  | nil =>
    intro m base a
    rw [Memory.storeProgramFrom, if_neg (by simp only [List.length_nil]; omega)]
  | cons b t ih =>
    intro m base a
    rw [Memory.storeProgramFrom, ih]
    by_cases h1 : base + 1 ≤ a ∧ a < base + 1 + t.length
    · rw [if_pos h1, if_pos (by simp only [List.length_cons]; omega)]
      have h2 : a - base = (a - (base + 1)) + 1 := by omega
      rw [h2, List.getD_cons_succ]
    · rw [if_neg h1]
      by_cases h2 : a = base
      · subst h2
        rw [if_pos (by simp only [List.length_cons]; omega)]
        simp [Memory.write]
      · rw [if_neg (by simp only [List.length_cons]; omega)]
        simp [Memory.write, h2]

/-- C6: `load_program` succeeds exactly when the program length is at most
3584; on success the bytes land at offsets 512..512+L with every other byte
unchanged, and on failure (`ProgramTooLarge`) the memory is fully unchanged. -/
theorem C6_load_program (m : Memory) (program : List Nat) :
    ((m.load_program program).1 = LoadResult.ok ↔ program.length ≤ 3584) ∧
    (∀ a, (m.load_program program).2.mem a =
      if program.length ≤ 3584 then
        (if 512 ≤ a ∧ a < 512 + program.length then program.getD (a - 512) 0
         else m.mem a)
      else m.mem a) := by
  by_cases h : program.length + 512 > 4096
  · constructor
    · rw [Memory.load_program, if_pos h]
      constructor
      · intro hok
        exact absurd hok (by simp)
      · intro hlen
        omega
    · intro a
      rw [Memory.load_program, if_pos h]
      rw [if_neg (by omega)]
  · constructor
    · rw [Memory.load_program, if_neg h]
      constructor
      · intro _
        omega
      · intro _
        rfl
    · intro a
      rw [Memory.load_program, if_neg h]
      rw [if_pos (by omega)]
      exact storeProgramFrom_mem program m 512 a

/-! ## C10 -/

lemma row_count_wrap (s : Screen) (y : Nat) (l : List Nat) : ∀ (c : Nat),
    l.foldl (fun c' x => if s.screen y x = 1 then (c' + 1) % 256 else c') (c % 256)
      = (l.foldl (fun c' x => if s.screen y x = 1 then c' + 1 else c') c) % 256 := by
  induction l with
  | nil => intro c; rfl
  | cons a t ih =>
    intro c
    by_cases hq : s.screen y a = 1
    · simp only [List.foldl_cons, if_pos hq]
      have h1 : (c % 256 + 1) % 256 = (c + 1) % 256 := by omega
      rw [h1, ih]
    · simp only [List.foldl_cons, if_neg hq]
      exact ih c

lemma grid_count_wrap (s : Screen) (rows : List Nat) : ∀ (c : Nat),
    rows.foldl (fun c' y => (List.range 64).foldl
        (fun c2 x => if s.screen y x = 1 then (c2 + 1) % 256 else c2) c') (c % 256)
      = (rows.foldl (fun c' y => (List.range 64).foldl
        (fun c2 x => if s.screen y x = 1 then c2 + 1 else c2) c') c) % 256 := by
  induction rows with
  | nil => intro c; rfl
  | cons r t ih =>
    intro c
    simp only [List.foldl_cons]
    rw [row_count_wrap s r (List.range 64) c, ih]

lemma how_many_ones_eq_mod (s : Screen) :
    s.how_many_ones = count_set_pixels_spec s % 256 := by
  unfold Screen.how_many_ones count_set_pixels_spec
  have h0 : (0 : Nat) = 0 % 256 := rfl
  rw [h0, grid_count_wrap s (List.range 32) 0]

lemma foldl_add_const (k : Nat) (f : Nat → Nat → Nat) (hf : ∀ c x, f c x = c + k)
    (l : List Nat) : ∀ c, l.foldl f c = c + k * l.length := by
  induction l with
  | nil => intro c; simp
  | cons a t ih =>
    intro c
    rw [List.foldl_cons, hf, ih, List.length_cons]
    ring

lemma count_all_on : count_set_pixels_spec ⟨fun _ _ => 1, false⟩ = 2048 := by
  unfold count_set_pixels_spec
  have hinner : ∀ (c y : Nat),
      (List.range 64).foldl
        (fun c' x => if (Screen.mk (fun _ _ => 1) false).screen y x = 1
          then c' + 1 else c') c = c + 64 := by
    intro c y
    rw [foldl_add_const 1 _ (fun c' x => by simp) (List.range 64) c]
    simp
  rw [foldl_add_const 64 _ hinner (List.range 32) 0]
  simp

/-- C10: the `u8` pixel counter of `how_many_ones` accumulates modulo 256, so
it returns the exact number of set pixels precisely when that number is at
most 255; the overflow case is reachable — the all-on 64×32 display has 2048
set pixels, for which `how_many_ones` returns 0. -/
theorem C10_pixel_count :
    (∀ s : Screen, s.how_many_ones = count_set_pixels_spec s % 256 ∧
      (s.how_many_ones = count_set_pixels_spec s ↔ count_set_pixels_spec s ≤ 255)) ∧
    count_set_pixels_spec ⟨fun _ _ => 1, false⟩ = 2048 ∧
    Screen.how_many_ones ⟨fun _ _ => 1, false⟩ = 0 := by
  refine ⟨fun s => ?_, count_all_on, ?_⟩
  · have h := how_many_ones_eq_mod s
    exact ⟨h, by omega⟩
  · rw [how_many_ones_eq_mod, count_all_on]

/-! ## Dispatch helper lemmas -/

lemma execute_cont (c : Chip8) (o : Nat) (c' : Chip8)
    (h : c.dispatch o = some (c', true)) :
    c.execute_instruction o =
      some (Chip8.tickTimers { c' with pc := (c'.pc + 2) % 65536 }) := by
  unfold Chip8.execute_instruction
  rw [h]
  rfl

lemma execute_stop (c : Chip8) (o : Nat) (c' : Chip8)
    (h : c.dispatch o = some (c', false)) :
    c.execute_instruction o = some c' := by
  unfold Chip8.execute_instruction
  rw [h]
  rfl

lemma dispatch_add (o x y : Nat) (c : Chip8)
    (hg : (o &&& 0xF000) >>> 12 = 0x8)
    (hdx : (o &&& 0x0F00) >>> 8 = x)
    (hdy : (o &&& 0x00F0) >>> 4 = y)
    (hdn : o &&& 0x000F = 0x4) :
    c.dispatch o = some (c.add x y, true) := by
  unfold Chip8.dispatch
  simp only [hg, hdx, hdy, hdn]
  norm_num

lemma dispatch_sub (o x y : Nat) (c : Chip8)
    (hg : (o &&& 0xF000) >>> 12 = 0x8)
    (hdx : (o &&& 0x0F00) >>> 8 = x)
    (hdy : (o &&& 0x00F0) >>> 4 = y)
    (hdn : o &&& 0x000F = 0x5) :
    c.dispatch o = some (c.sub x y, true) := by
  unfold Chip8.dispatch
  simp only [hg, hdx, hdy, hdn]
  norm_num

/-! ## C7 -/

/-- C7 (amended): for every opcode decoding to group 8 / low nibble 4 (that
is, `0x8xy4`) with destination register `x ≠ 0xF`, execution leaves
`VF = 1` iff `Vx + Vy > 255` and `Vx = (Vx + Vy) mod 256`.  (For `x = 0xF`
the carry write overwrites the stored sum — see the counterexample.) -/
theorem C7_add_overflow (o x y : Nat) (c : Chip8)
    (hxF : x ≠ 0xF)
    (hg : (o &&& 0xF000) >>> 12 = 0x8)
    (hdx : (o &&& 0x0F00) >>> 8 = x)
    (hdy : (o &&& 0x00F0) >>> 4 = y)
    (hdn : o &&& 0x000F = 0x4) :
    ∃ c', c.execute_instruction o = some c' ∧
      (c'.register 0xF = 1 ↔ c.register x + c.register y > 255) ∧
      c'.register x = (c.register x + c.register y) % 256 := by
  refine ⟨_, execute_cont c o (c.add x y) (dispatch_add o x y c hg hdx hdy hdn), ?_, ?_⟩
  · rw [tickTimers_register]
    show (c.add x y).register 0xF = 1 ↔ _
    simp only [Chip8.add]
    by_cases hov : c.register x + c.register y > 255
    · simp [hov, updFn]
    · simp [hov, updFn]
  · rw [tickTimers_register]
    show (c.add x y).register x = _
    simp only [Chip8.add]
    by_cases hov : c.register x + c.register y > 255 <;>
      simp [hov, updFn, hxF]

/-- C7 counterexample: with `x = y = 0xF` and `VF = 1` beforehand, opcode
`0x8FF4` leaves the result register `VF = 0`, not `(1 + 1) mod 256 = 2` as
the claim (quantified over every pair of register indices) requires. -/
theorem C7_counterexample :
    (c7State.execute_instruction 0x8FF4).map (fun s => s.register 0xF) = some 0 ∧
    (0 : Nat) ≠ (c7State.register 0xF + c7State.register 0xF) % 256 := by
  refine ⟨by decide, by decide⟩

/-- C7 witness: the amended theorem applied at opcode `0x8124` on the fresh
machine. -/
theorem C7_witness :
    ∃ c', (Chip8.new (fun _ => 0)).execute_instruction 0x8124 = some c' ∧
      (c'.register 0xF = 1 ↔
        (Chip8.new (fun _ => 0)).register 1 + (Chip8.new (fun _ => 0)).register 2 > 255) ∧
      c'.register 1 =
        ((Chip8.new (fun _ => 0)).register 1 + (Chip8.new (fun _ => 0)).register 2) % 256 :=
  C7_add_overflow 0x8124 1 2 (Chip8.new (fun _ => 0))
    (by decide) (by decide) (by decide) (by decide) (by decide)

/-! ## C3 -/

/-- C3 (amended): for every opcode decoding to `0x8xy5` with `x ≠ 0xF`:
if `Vy > Vx` then `Vx := abs(Vx − Vy + 1) mod 256` (that is, `Vy − Vx − 1`)
and `VF := 0`; if `Vy ≤ Vx` then `Vx := Vx − Vy` and `VF := 1`.  (The claim's
formula `abs(Vy − Vx + 1)` is what the spec states; the code computes
`abs(Vx − Vy + 1)` — see the counterexample.) -/
theorem C3_sub_borrow (o x y : Nat) (c : Chip8)
    (hxF : x ≠ 0xF)
    (hg : (o &&& 0xF000) >>> 12 = 0x8)
    (hdx : (o &&& 0x0F00) >>> 8 = x)
    (hdy : (o &&& 0x00F0) >>> 4 = y)
    (hdn : o &&& 0x000F = 0x5) :
    ∃ c', c.execute_instruction o = some c' ∧
      (c.register y > c.register x →
        c'.register x = (c.register y - c.register x - 1) % 256 ∧
        c'.register 0xF = 0) ∧
      (c.register y ≤ c.register x →
        c'.register x = c.register x - c.register y ∧
        c'.register 0xF = 1) := by
  refine ⟨_, execute_cont c o (c.sub x y) (dispatch_sub o x y c hg hdx hdy hdn), ?_, ?_⟩
  · intro hgt
    rw [tickTimers_register]
    show (c.sub x y).register x = _ ∧ (c.sub x y).register 0xF = 0
    simp only [Chip8.sub, if_pos hgt]
    have habs : (((c.register x : Int) - (c.register y : Int) + 1).natAbs)
        = c.register y - c.register x - 1 := by omega
    constructor
    · simp [updFn, hxF, habs]
    · simp [updFn]
  · intro hle
    rw [tickTimers_register]
    show (c.sub x y).register x = _ ∧ (c.sub x y).register 0xF = 1
    simp only [Chip8.sub, if_neg (by omega : ¬ c.register y > c.register x)]
    constructor
    · simp [updFn, hxF]
    · simp [updFn]

/-- C3 counterexample: with `V0 = 0xBA`, `V1 = 0xCC` (so `V1 > V0`), opcode
`0x8015` stores `0x11 = 17` in `V0`, whereas the claim's formula
`abs(V1 − V0 + 1) mod 256` is `0x13 = 19`. -/
theorem C3_counterexample :
    c3State.register 1 > c3State.register 0 ∧
    (c3State.execute_instruction 0x8015).map (fun s => (s.register 0, s.register 0xF)) =
      some (17, 0) ∧
    (17 : Nat) ≠
      (((c3State.register 1 : Int) - (c3State.register 0 : Int) + 1).natAbs) % 256 := by
  refine ⟨by decide, by decide, by decide⟩

/-- C3 witness: the amended theorem applied at opcode `0x8125` on the fresh
machine. -/
theorem C3_witness :
    ∃ c', (Chip8.new (fun _ => 0)).execute_instruction 0x8125 = some c' ∧
      ((Chip8.new (fun _ => 0)).register 2 > (Chip8.new (fun _ => 0)).register 1 →
        c'.register 1 =
          ((Chip8.new (fun _ => 0)).register 2 - (Chip8.new (fun _ => 0)).register 1 - 1) % 256 ∧
        c'.register 0xF = 0) ∧
      ((Chip8.new (fun _ => 0)).register 2 ≤ (Chip8.new (fun _ => 0)).register 1 →
        c'.register 1 =
          (Chip8.new (fun _ => 0)).register 1 - (Chip8.new (fun _ => 0)).register 2 ∧
        c'.register 0xF = 1) :=
  C3_sub_borrow 0x8125 1 2 (Chip8.new (fun _ => 0))
    (by decide) (by decide) (by decide) (by decide) (by decide)

/-! ## C8 -/

lemma dispatch_call (o nnn : Nat) (c : Chip8)
    (hg : (o &&& 0xF000) >>> 12 = 0x2)
    (hnnn : o &&& 0x0FFF = nnn) :
    c.dispatch o = (c.call_fn_at_addr nnn).map (fun c' => (c', false)) := by
  unfold Chip8.dispatch
  simp only [hg, hnnn]
  norm_num

lemma dispatch_ret (c : Chip8) :
    c.dispatch 0x00EE = (c.return_from_fn_call).map (fun c' => (c', true)) := by
  unfold Chip8.dispatch
  simp only [show ((0x00EE &&& 0xF000) >>> 12 : Nat) = 0 from rfl,
    show ((0x00EE &&& 0x0F00) >>> 8 : Nat) = 0 from rfl,
    show ((0x00EE &&& 0x00F0) >>> 4 : Nat) = 0xE from rfl,
    show ((0x00EE &&& 0x000F) : Nat) = 0xE from rfl]
  norm_num

/-- C8 (amended): a `0x2nnn` call directly followed by the subroutine's
`0x00EE` is a round trip — `PC` ends at the call's `PC + 2` and the stack
depth returns to its pre-call value.  The spec's ten-byte example program
places `0x00EE` at address 520 while calling 0x20A = 522, so it does not
exercise the return (see the counterexample); the twelve-byte program
`[0x22,0x0A, 0,0,0,0,0,0,0,0, 0x00,0xEE]`, with `0x00EE` at 522, runs to
`PC = 514` with stack pointer 0. -/
theorem C8_call_return :
    (∀ (o nnn : Nat) (c : Chip8), c.sp < 16 → c.pc + 2 < 65536 →
      (o &&& 0xF000) >>> 12 = 0x2 → o &&& 0x0FFF = nnn →
      ∃ c1 c2, c.execute_instruction o = some c1 ∧ c1.pc = nnn ∧ c1.sp = c.sp + 1 ∧
        c1.execute_instruction 0x00EE = some c2 ∧ c2.pc = c.pc + 2 ∧ c2.sp = c.sp) ∧
    (Chip8.runFuel 10 c8FixedMachine).map (fun cf => (cf.pc, cf.sp)) = some (514, 0) := by
  constructor
  · intro o nnn c hsp hpc hg hnnn
    set c1 : Chip8 :=
      { c with stack := updFn c.stack c.sp c.pc, sp := c.sp + 1, pc := nnn } with hc1
    have hcall : c.call_fn_at_addr nnn = some c1 := by
      unfold Chip8.call_fn_at_addr
      rw [if_neg (by omega)]
    have hdisp : c.dispatch o = some (c1, false) := by
      rw [dispatch_call o nnn c hg hnnn, hcall, Option.map_some']
    have hret : c1.return_from_fn_call = some { c1 with sp := c.sp, pc := c.pc } := by
      unfold Chip8.return_from_fn_call
      rw [if_neg (by simp [hc1])]
      simp [hc1, updFn]
    have hdisp2 : c1.dispatch 0x00EE = some ({ c1 with sp := c.sp, pc := c.pc }, true) := by
      rw [dispatch_ret c1, hret, Option.map_some']
    refine ⟨c1, _, execute_stop c o c1 hdisp, rfl, rfl,
      execute_cont c1 0x00EE _ hdisp2, ?_, ?_⟩
    · rw [tickTimers_pc]
      show (c.pc + 2) % 65536 = c.pc + 2
      exact Nat.mod_eq_of_lt hpc
    · rw [tickTimers_sp]
  · decide

/-- C8 counterexample: running the spec's ten-byte example program halts with
`PC = 522` and stack pointer 1 (the call target 0x20A holds `0x0000`, not the
`0x00EE` sitting at address 520), not `PC = 514` and stack pointer 0 as
claimed. -/
theorem C8_counterexample :
    (Chip8.runFuel 10 c8SpecMachine).map (fun cf => (cf.pc, cf.sp)) = some (522, 1) ∧
    ((522 : Nat), (1 : Nat)) ≠ ((514 : Nat), (0 : Nat)) := by
  refine ⟨by decide, by decide⟩

/-- C8 witness: the round-trip theorem applied to opcode `0x220A` on the
loaded twelve-byte machine. -/
theorem C8_witness :
    ∃ c1 c2, c8FixedMachine.execute_instruction 0x220A = some c1 ∧ c1.pc = 0x20A ∧
      c1.sp = c8FixedMachine.sp + 1 ∧ c1.execute_instruction 0x00EE = some c2 ∧
      c2.pc = c8FixedMachine.pc + 2 ∧ c2.sp = c8FixedMachine.sp :=
  C8_call_return.1 0x220A 0x20A c8FixedMachine (by decide) (by decide) (by decide) (by decide)

/-! ## C9 -/

lemma listAny_congr (l : List Nat) (f g : Nat → Bool) (h : ∀ a ∈ l, f a = g a) :
    l.any f = l.any g := by
  induction l with
  | nil => rfl
  | cons a t ih =>
    rw [List.any_cons, List.any_cons, h a (List.mem_cons_self a t),
      ih (fun b hb => h b (List.mem_cons_of_mem a hb))]

lemma xor_one_twice (v : Nat) : (v ^^^ 1) ^^^ 1 = v := by
  rw [Nat.xor_assoc]
  simp

lemma xor_one_eq_one (v : Nat) : (v ^^^ 1 = 1) ↔ v = 0 := by
  constructor
  · intro h
    have h2 := congrArg (fun t => t ^^^ 1) h
    simpa [Nat.xor_assoc] using h2
  · intro h
    rw [h]
    decide

lemma hitB_cons (pixel x_coord i x' : Nat) (rest : List Nat) :
    hitB pixel x_coord (i :: rest) x'
      = ((bitSetB pixel i && (x' == x_coord + i)) || hitB pixel x_coord rest x') := by
  simp [hitB]

lemma hitB_out (pixel x_coord i : Nat) (rest : List Nat) (hi : i ∉ rest) :
    hitB pixel x_coord rest (x_coord + i) = false := by
  rw [← Bool.not_eq_true]
  intro h
  rw [hitB, List.any_eq_true] at h
  obtain ⟨j, hj, hcond⟩ := h
  rw [Bool.and_eq_true, beq_iff_eq] at hcond
  have hij : i = j := by omega
  exact hi (hij ▸ hj)

lemma spriteLoop_spec (pixel x_coord y_coord : Nat) :
    ∀ (idxs : List Nat) (s : Screen), idxs.Nodup → y_coord < 32 →
    (∀ i ∈ idxs, bitSetB pixel i = true → x_coord + i < 64) →
    ∃ s', Screen.spriteLoop pixel x_coord y_coord idxs s = some s' ∧
      (∀ y' x', s'.screen y' x' =
        if y' = y_coord ∧ hitB pixel x_coord idxs x' = true
        then s.screen y' x' ^^^ 1 else s.screen y' x') ∧
      s'.collision = (s.collision || idxs.any
        (fun i => bitSetB pixel i && (s.screen y_coord (x_coord + i) == 1))) := by
  intro idxs
  induction idxs with
  | nil =>
    intro s _ _ _
    refine ⟨s, rfl, ?_, by simp⟩
    intro y' x'
    simp [hitB]
  | cons i rest ih =>
    intro s hnd hy hx
    obtain ⟨hi, hrest⟩ := List.nodup_cons.mp hnd
    cases hb : bitSetB pixel i with
    | false =>
      have hstep : Screen.spriteStep pixel x_coord y_coord s i = some s := by
        simp [Screen.spriteStep, hb]
      obtain ⟨s', hs', hscr, hcol⟩ := ih s hrest hy
        (fun j hj hbj => hx j (List.mem_cons_of_mem _ hj) hbj)
      refine ⟨s', ?_, ?_, ?_⟩
      · rw [Screen.spriteLoop, hstep]
        exact hs'
      · intro y' x'
        rw [hscr y' x', hitB_cons]
        simp [hb]
      · rw [hcol, List.any_cons]
        simp [hb]
    | true =>
      have hxi : x_coord + i < 64 := hx i (List.mem_cons_self i rest) hb
      set s2 : Screen := ⟨toggleCell s.screen y_coord (x_coord + i),
        (s.collision || (s.screen y_coord (x_coord + i) == 1))⟩ with hs2
      have hstep : Screen.spriteStep pixel x_coord y_coord s i = some s2 := by
        cases hv : s.screen y_coord (x_coord + i) == 1 <;>
          simp [Screen.spriteStep, Screen.draw_pixel_at_location, hb, hv, hy, hxi, hs2]
      obtain ⟨s', hs', hscr, hcol⟩ := ih s2 hrest hy
        (fun j hj hbj => hx j (List.mem_cons_of_mem _ hj) hbj)
      refine ⟨s', ?_, ?_, ?_⟩
      · rw [Screen.spriteLoop, hstep]
        exact hs'
      · intro y' x'
        rw [hscr y' x', hitB_cons]
        by_cases hyy : y' = y_coord
        · subst hyy
          by_cases hxx : x' = x_coord + i
          · subst hxx
            have hre : hitB pixel x_coord rest (x_coord + i) = false :=
              hitB_out pixel x_coord i rest hi
            simp [hs2, toggleCell, hre, hb]
          · simp [hs2, toggleCell, hb, hxx]
        · simp [hs2, toggleCell, hyy]
      · rw [hcol]
        have hrw : rest.any (fun j => bitSetB pixel j && (s2.screen y_coord (x_coord + j) == 1))
            = rest.any (fun j => bitSetB pixel j && (s.screen y_coord (x_coord + j) == 1)) := by
          apply listAny_congr
          intro j hj
          have hne : x_coord + j ≠ x_coord + i := by
            intro hEq
            have hij : j = i := by omega
            exact hi (hij ▸ hj)
          simp [hs2, toggleCell, hne]
        rw [hrw, List.any_cons]
        simp [hs2, hb, Bool.or_assoc]

lemma draw_sprite_spec (s : Screen) (pixel x_coord y_coord : Nat)
    (hy : y_coord < 32)
    (hx : ∀ i, i < 8 → bitSetB pixel i = true → x_coord + i < 64) :
    ∃ scr c, s.draw_sprite_at_location pixel x_coord y_coord = some (scr, c) ∧
      scr.collision = false ∧
      (∀ y' x', scr.screen y' x' =
        if y' = y_coord ∧ hitB pixel x_coord (List.range 8) x' = true
        then s.screen y' x' ^^^ 1 else s.screen y' x') ∧
      c = (s.collision || (List.range 8).any
        (fun i => bitSetB pixel i && (s.screen y_coord (x_coord + i) == 1))) := by
  obtain ⟨s', h1, h2, h3⟩ := spriteLoop_spec pixel x_coord y_coord (List.range 8) s
    (List.nodup_range 8) hy (fun i hi hbi => hx i (List.mem_range.mp hi) hbi)
  refine ⟨{ s' with collision := false }, s'.collision, ?_, rfl, h2, h3⟩
  unfold Screen.draw_sprite_at_location
  rw [h1]

/-- C9 (amended): drawing the same sprite row twice at the same in-bounds
coordinates restores every pixel to its value before the first draw; the
second draw reports collision = true iff some set bit of the sprite targets a
pixel that was clear before the first draw (in particular it does for every
nonzero sprite drawn on initially clear pixels, but not for the zero sprite,
nor when every targeted pixel was already set — see the counterexample). -/
theorem C9_draw_twice (s : Screen) (pixel x_coord y_coord : Nat)
    (_hcol : s.collision = false) (hy : y_coord < 32)
    (hx : ∀ i, i < 8 → bitSetB pixel i = true → x_coord + i < 64) :
    ∃ s1 c1 s2 c2,
      s.draw_sprite_at_location pixel x_coord y_coord = some (s1, c1) ∧
      s1.draw_sprite_at_location pixel x_coord y_coord = some (s2, c2) ∧
      (∀ y' x', s2.screen y' x' = s.screen y' x') ∧
      (c2 = true ↔ ∃ i, i < 8 ∧ bitSetB pixel i = true ∧
        s.screen y_coord (x_coord + i) = 0) := by
  obtain ⟨s1, c1, h1, h1c, h1scr, h1val⟩ := draw_sprite_spec s pixel x_coord y_coord hy hx
  obtain ⟨s2, c2, h2, h2c, h2scr, h2val⟩ := draw_sprite_spec s1 pixel x_coord y_coord hy hx
  refine ⟨s1, c1, s2, c2, h1, h2, ?_, ?_⟩
  · intro y' x'
    rw [h2scr y' x', h1scr y' x']
    by_cases hc : y' = y_coord ∧ hitB pixel x_coord (List.range 8) x' = true
    · rw [if_pos hc, if_pos hc, xor_one_twice]
    · rw [if_neg hc, if_neg hc]
  · rw [h2val, h1c, Bool.false_or]
    have hrw : (List.range 8).any
        (fun i => bitSetB pixel i && (s1.screen y_coord (x_coord + i) == 1))
        = (List.range 8).any
        (fun i => bitSetB pixel i && ((s.screen y_coord (x_coord + i) ^^^ 1) == 1)) := by
      apply listAny_congr
      intro i hi8
      cases hbi : bitSetB pixel i with
      | false => simp
      | true =>
        have hhit : y_coord = y_coord ∧
            hitB pixel x_coord (List.range 8) (x_coord + i) = true := by
          refine ⟨rfl, ?_⟩
          rw [hitB, List.any_eq_true]
          exact ⟨i, hi8, by simp [hbi]⟩
        rw [h1scr y_coord (x_coord + i), if_pos hhit]
    rw [hrw]
    constructor
    · intro hany
      rw [List.any_eq_true] at hany
      obtain ⟨i, hi8, hcond⟩ := hany
      rw [Bool.and_eq_true, beq_iff_eq] at hcond
      exact ⟨i, List.mem_range.mp hi8, hcond.1, (xor_one_eq_one _).mp hcond.2⟩
    · intro h
      obtain ⟨i, hi8, hbi, hzero⟩ := h
      rw [List.any_eq_true]
      refine ⟨i, List.mem_range.mpr hi8, ?_⟩
      rw [Bool.and_eq_true, beq_iff_eq]
      exact ⟨hbi, (xor_one_eq_one _).mpr hzero⟩

/-- C9 counterexample: the zero sprite row touches no pixels, so the second
of two identical draws at (0, 0) on the blank screen returns
collision = false, not true as the claim (quantified over every sprite)
requires. -/
theorem C9_counterexample :
    ((Screen.default.draw_sprite_at_location 0 0 0).bind
      (fun p => p.1.draw_sprite_at_location 0 0 0)).map Prod.snd = some false ∧
    false ≠ true := by
  refine ⟨rfl, by decide⟩

/-- C9 witness: the amended theorem applied to sprite row 0xF0 drawn at
(0, 0) on the blank screen. -/
theorem C9_witness :
    Screen.default.collision = false ∧
    (∃ s1 c1 s2 c2,
      Screen.default.draw_sprite_at_location 0xF0 0 0 = some (s1, c1) ∧
      s1.draw_sprite_at_location 0xF0 0 0 = some (s2, c2) ∧
      (∀ y' x', s2.screen y' x' = Screen.default.screen y' x') ∧
      (c2 = true ↔ ∃ i, i < 8 ∧ bitSetB 0xF0 i = true ∧
        Screen.default.screen 0 (0 + i) = 0)) :=
  ⟨rfl, C9_draw_twice Screen.default 0xF0 0 0 rfl (by decide)
    (fun i hi _ => by omega)⟩
